import Mathlib

/-!
# Verification of the midterm repository (port scanner, echo server, TCP client)

Shallow embedding of `src/port_scanner.py` and `src/theClient.py` together with
proofs of the specification's testable properties.

Conventions of the embedding:
* Python integers are modelled as `ℤ` (unbounded, as in Python).
* Python strings are handled through their character lists; `str.split(",")`,
  `str.strip()` and `int(...)` are modelled by the structurally recursive
  `splitOnComma`, `pyStrip` and `pyInt` below.
* The Python `set` accumulator of `parse_ports` is modelled as a
  duplicate-free `List ℤ` grown with `List.insert`; `sorted(ports)` is
  modelled by `List.insertionSort`.
* Fallible code (`raise ValueError`) is modelled with `Except String`.
* The non-deterministic completion order of `concurrent.futures.as_completed`
  is modelled as an explicit parameter `comp : List ℤ`, constrained in the
  theorems to be a permutation of the submitted ports.
* Socket behaviour is modelled by a `Transport` oracle giving, for each
  (host, port) pair, either the return code of `connect_ex` or the fact that
  an exception was raised.
-/

/-- Model of Python's `s.split(",")`: cut the character list at every comma,
keeping empty segments (so the empty string yields one empty segment). -/
def splitOnComma : List Char → List (List Char)
  | [] => [[]]
  | ',' :: cs => [] :: splitOnComma cs
  | c :: cs =>
      match splitOnComma cs with
      | seg :: rest => (c :: seg) :: rest
      | [] => [[c]]

/-- Model of Python's `s.strip()`: drop whitespace from both ends. -/
def pyStrip (cs : List Char) : List Char :=
  ((cs.dropWhile Char.isWhitespace).reverse.dropWhile Char.isWhitespace).reverse

/-- Digit-run evaluator for `pyInt`: consumes decimal digits, allowing a
single underscore between two digits (as Python's `int` does). -/
def pyDigits : List Char → Nat → Option Nat
  | [], acc => some acc
  | '_' :: c :: cs, acc =>
      if c.isDigit then pyDigits cs (acc * 10 + (c.toNat - '0'.toNat)) else none
  | ['_'], _ => none
  | c :: cs, acc =>
      if c.isDigit then pyDigits cs (acc * 10 + (c.toNat - '0'.toNat)) else none

/-- Model of Python's `int(s)`: strip surrounding whitespace, optional sign,
then a nonempty digit run.  Returns `none` where Python raises `ValueError`. -/
def pyInt (s : List Char) : Option ℤ :=
  match pyStrip s with
  | '+' :: c :: cs =>
      if c.isDigit then (pyDigits (c :: cs) 0).map (fun n => (n : ℤ)) else none
  | '-' :: c :: cs =>
      if c.isDigit then (pyDigits (c :: cs) 0).map (fun n => -(n : ℤ)) else none
  | c :: cs =>
      if c.isDigit then (pyDigits (c :: cs) 0).map (fun n => (n : ℤ)) else none
  | [] => none

/-- The non-blank, whitespace-stripped segments of a port specification:
`[p.strip() for p in port_spec.split(",") if p.strip()]`. -/
def portParts (port_spec : String) : List (List Char) :=
  ((splitOnComma port_spec.data).map pyStrip).filter (fun p => p ≠ [])

/-- The text before the first `-` of a segment (first component of
`part.split("-", 1)`). -/
def rangeLo (part : List Char) : List Char :=
  part.takeWhile (· ≠ '-')

/-- The text after the first `-` of a segment (second component of
`part.split("-", 1)`). -/
def rangeHi (part : List Char) : List Char :=
  (part.dropWhile (· ≠ '-')).drop 1

/-- Model of Python's `range(a, b + 1)` over `ℤ`. -/
def pyRange (a b : ℤ) : List ℤ :=
  (List.range (b + 1 - a).toNat).map (fun (i : ℕ) => a + (i : ℤ))

/-- The ports contributed by one segment, or the `ValueError` raised: a
segment containing `-` is a range `a-b` (`ports.update(range(a, b + 1))`
guarded by `a < 1 or b > 65535 or a > b`); otherwise a single port
(`ports.add(n)` guarded by `n < 1 or n > 65535`). -/
def partSet (part : List Char) : Except String (List ℤ) :=
  if part.contains '-' then
    match pyInt (rangeLo part), pyInt (rangeHi part) with
    | some a, some b =>
        if a < 1 ∨ b > 65535 ∨ a > b then
          .error ("Invalid port range: " ++ String.mk part)
        else
          .ok (pyRange a b)
    | _, _ => .error ("invalid literal for int: " ++ String.mk part)
  else
    match pyInt part with
    | some n =>
        if n < 1 ∨ n > 65535 then
          .error ("Invalid port number: " ++ String.mk part)
        else .ok [n]
    | none => .error ("invalid literal for int: " ++ String.mk part)

/-- One iteration of the `for part in parts` loop: add the segment's ports to
the accumulated set, or propagate the `ValueError`. -/
def addPart (acc : List ℤ) (part : List Char) : Except String (List ℤ) :=
  match partSet part with
  | .error e => .error e
  | .ok ps => .ok (ps.foldl (fun ac n => ac.insert n) acc)

/-- Model of `parse_ports` from `port_scanner.py`: accumulate the set-union of all
segment values and return it sorted ascending (`sorted(ports)`); a bad
segment aborts with a `ValueError`. -/
def parse_ports (port_spec : String) : Except String (List ℤ) :=
  match (portParts port_spec).foldlM addPart ([] : List ℤ) with
  | .error e => .error e
  | .ok s => .ok (s.insertionSort (· ≤ ·))

/-- Returns `true` exactly on the `Except.error` constructor. -/
def isErr {ε α : Type} (e : Except ε α) : Bool :=
  match e with
  | .error _ => true
  | .ok _ => false

/-- The `ALLOWED_HOSTS` constant from `port_scanner.py`. -/
def ALLOWED_HOSTS : List String := ["127.0.0.1", "localhost", "scanme.nmap.org"]

/-- Outcome of one attempted TCP connection: either `connect_ex` returned the
integer `code`, or an exception was raised inside the `with` block. -/
inductive ConnectOutcome : Type
  | code (c : ℤ)
  | fault

/-- A transport oracle: for each (host, port) pair, the behaviour the network
exhibits when a connection is attempted. -/
def Transport : Type := String → ℤ → ConnectOutcome

/-- Model of `scan_port` from `port_scanner.py`: returns `(port, result == 0)` when
`connect_ex` returns, and `(port, False)` when any exception is raised. -/
def scan_port (t : Transport) (host : String) (port : ℤ) (timeout : ℚ) : ℤ × Bool :=
  match t host port with
  | .code c => (port, c = 0)
  | .fault => (port, false)

/-- A step of the submission loop of `main`: submitting one probe task, or
sleeping for the pacing delay. -/
inductive Ev : Type
  | submit (port : ℤ)
  | sleep (d : ℚ)

/-- The trace of the submission loop of `main`: for each port (in the order of
the parsed list) one submission followed by `time.sleep(delay)`. -/
def submissionTrace (ports : List ℤ) (delay : ℚ) : List Ev :=
  ports.flatMap (fun p => [Ev.submit p, Ev.sleep delay])

/-- The error classes of `main`: host outside the allow-list, or a
`ValueError` from `parse_ports`. -/
inductive ScanErr : Type
  | forbiddenTarget
  | invalidPortSpecification

/-- Observable outcome of one scanner invocation. -/
structure ScanRun : Type where
  exitCode : Nat
  err : Option ScanErr
  sockets : List ℤ
  results : List (ℤ × Bool)
  openPorts : List ℤ
  trace : List Ev

/-- Model of `main` from `port_scanner.py`.  `comp` is the order in which
`as_completed` yields the futures (a permutation of the parsed ports, supplied
as a parameter because it is non-deterministic).  `sockets` records the ports
for which a socket was created.  `openPorts` is accumulated by
`open_ports.append(port)` in completion order and logged unsorted at the end.
`workers` is the pool cap; it does not influence which tasks are submitted,
the pacing, or the collected results. -/
def runScanner (host port_spec : String) (workers : Nat) (timeout delay : ℚ)
    (t : Transport) (comp : List ℤ) : ScanRun :=
  if host ∈ ALLOWED_HOSTS then
    match parse_ports port_spec with
    | .error _ =>
        { exitCode := 1, err := some .invalidPortSpecification, sockets := [],
          results := [], openPorts := [], trace := [] }
    | .ok ports =>
        let rs := comp.map (fun p => scan_port t host p timeout)
        { exitCode := 0, err := none, sockets := comp, results := rs,
          openPorts := rs.foldl (fun acc r => if r.2 then acc ++ [r.1] else acc) [],
          trace := submissionTrace ports delay }
  else
    { exitCode := 1, err := some .forbiddenTarget, sockets := [],
      results := [], openPorts := [], trace := [] }

/-! ## Model of `theClient.py` -/

/-- Outcome of one `sock.recv(4096)` call in the client loop: the server
closed (empty data), the wait timed out, or data arrived. -/
inductive RecvOut : Type
  | closed
  | timedOut
  | data (s : String)

/-- Behaviour of the server side as the client loop observes it: whether the
k-th `sendall` succeeds (`False` = `BrokenPipeError`), and the outcome of the
k-th `recv`. -/
structure ServerModel : Type where
  sendOk : Nat → Bool
  recv : Nat → RecvOut

/-- Why the interactive loop stopped. -/
inductive StopReason : Type
  | eof
  | keyword
  | serverClosed
  | brokenPipe

/-- The `msg.lower() in ("quit", "exit")` test of `theClient.py` (applied to
the already-stripped message). -/
def isQuitWord (msg : List Char) : Bool :=
  let lw := msg.map Char.toLower
  decide (lw = "quit".data ∨ lw = "exit".data)

/-- The interactive loop of `interactive_client` in `theClient.py`.  `inputs`
is the sequence of `input()` results, `none` marking `EOFError` /
`KeyboardInterrupt`; `k` counts completed send/receive rounds; `sent` is the
accumulator of byte strings passed to `sock.sendall`.  Each input line is
stripped; blank lines are skipped; `quit`/`exit` (case-insensitively, after
stripping) breaks; otherwise the stripped line is sent and one reply is
awaited (a timeout merely logs and continues). -/
def clientLoop (srv : ServerModel) : List (Option (List Char)) → Nat →
    List (List Char) → List (List Char) × StopReason
  | [], _, sent => (sent, .eof)
  | none :: _, _, sent => (sent, .eof)
  | some line :: rest, k, sent =>
      let msg := pyStrip line
      if msg = [] then clientLoop srv rest k sent
      else if isQuitWord msg then (sent, .keyword)
      else if srv.sendOk k then
        match srv.recv k with
        | .closed => (sent ++ [msg], .serverClosed)
        | .timedOut => clientLoop srv rest (k + 1) (sent ++ [msg])
        | .data _ => clientLoop srv rest (k + 1) (sent ++ [msg])
      else (sent, .brokenPipe)

/-- Extract the submitted port from a trace step. -/
def submitOf : Ev → Option ℤ
  | .submit p => some p
  | .sleep _ => none

/-- A transport where ports 22 and 80 accept the connection and every other
port refuses it (`connect_ex` returns the nonzero code 111). -/
def stubTransport : Transport :=
  fun _ p => if p = 22 ∨ p = 80 then .code 0 else .code 111

/-- A server that accepts every send and always replies. -/
def srvEcho : ServerModel :=
  { sendOk := fun _ => true, recv := fun _ => .data "ok" }

example : parse_ports "80,75-85,82" = .ok [75, 76, 77, 78, 79, 80, 81, 82, 83, 84, 85] := by rfl

example : parse_ports "" = .ok [] := by rfl

example : parse_ports " , ," = .ok [] := by rfl

example : isErr (parse_ports "0-10") = true := by decide

example : isErr (parse_ports "70000") = true := by decide

example : isErr (parse_ports "10-5") = true := by decide

example : isErr (parse_ports "abc") = true := by decide

example : parse_ports "22,80,1000-1002" = .ok [22, 80, 1000, 1001, 1002] := by rfl

example : clientLoop srvEcho [some " hello ".data, some "QUIT".data] 0 [] =
    (["hello".data], .keyword) := by rfl

/-! ## Helper lemmas about the parser -/

lemma mem_pyRange {a b x : ℤ} : x ∈ pyRange a b ↔ a ≤ x ∧ x ≤ b := by
  unfold pyRange
  simp only [List.mem_map, List.mem_range]
  constructor
  · rintro ⟨i, hi, rfl⟩
    omega
  · rintro ⟨h1, h2⟩
    exact ⟨(x - a).toNat, by omega, by omega⟩

lemma mem_foldl_insert (ps : List ℤ) :
    ∀ (acc : List ℤ) (x : ℤ),
      x ∈ ps.foldl (fun ac n => ac.insert n) acc ↔ x ∈ acc ∨ x ∈ ps := by
  induction ps with
  | nil => simp
  | cons p ps ih =>
      intro acc x
      simp only [List.foldl_cons, ih, List.mem_insert_iff, List.mem_cons]
      tauto

lemma nodup_foldl_insert (ps : List ℤ) :
    ∀ acc : List ℤ, acc.Nodup → (ps.foldl (fun ac n => ac.insert n) acc).Nodup := by
  induction ps with
  | nil => exact fun acc h => h
  | cons p ps ih =>
      intro acc h
      rw [List.foldl_cons]
      exact ih (acc.insert p) h.insert

lemma foldlM_addPart_nil (acc : List ℤ) :
    ([] : List (List Char)).foldlM addPart acc = .ok acc := rfl

lemma foldlM_addPart_cons (p : List Char) (ps : List (List Char)) (acc : List ℤ) :
    (p :: ps).foldlM addPart acc =
      match partSet p with
      | .error e => .error e
      | .ok s => ps.foldlM addPart (s.foldl (fun ac n => ac.insert n) acc) := by
  rcases hp : partSet p with e | s <;>
    rw [List.foldlM_cons] <;> simp only [addPart, hp] <;> rfl

lemma foldlM_addPart_ok_mem :
    ∀ (parts : List (List Char)) (acc r : List ℤ),
      parts.foldlM addPart acc = .ok r →
      ∀ x : ℤ, x ∈ r ↔ x ∈ acc ∨ ∃ p ∈ parts, ∃ s, partSet p = .ok s ∧ x ∈ s := by
  intro parts
  induction parts with
  | nil =>
      intro acc r h x
      rw [foldlM_addPart_nil] at h
      cases h
      simp
  | cons p ps ih =>
      intro acc r h x
      rw [foldlM_addPart_cons] at h
      rcases hp : partSet p with e | s <;> simp only [hp] at h
      · exact absurd h (by simp)
      have hmem := ih _ r h x
      rw [hmem, mem_foldl_insert]
      constructor
      · rintro ((hx | hx) | ⟨q, hq, t, ht, hx⟩)
        · exact .inl hx
        · exact .inr ⟨p, by simp, s, hp, hx⟩
        · exact .inr ⟨q, by simp [hq], t, ht, hx⟩
      · rintro (hx | ⟨q, hq, t, ht, hx⟩)
        · exact .inl (.inl hx)
        · rcases List.mem_cons.mp hq with rfl | hq
          · rw [hp] at ht
            injection ht with ht
            subst ht
            exact .inl (.inr hx)
          · exact .inr ⟨q, hq, t, ht, hx⟩

lemma foldlM_addPart_nodup :
    ∀ (parts : List (List Char)) (acc r : List ℤ),
      parts.foldlM addPart acc = .ok r → acc.Nodup → r.Nodup := by
  intro parts
  induction parts with
  | nil =>
      intro acc r h hn
      rw [foldlM_addPart_nil] at h
      cases h
      exact hn
  | cons p ps ih =>
      intro acc r h hn
      rw [foldlM_addPart_cons] at h
      rcases hp : partSet p with e | s <;> simp only [hp] at h
      · exact absurd h (by simp)
      · exact ih _ r h (nodup_foldl_insert s acc hn)

lemma foldlM_addPart_err :
    ∀ (parts : List (List Char)) (acc : List ℤ),
      isErr (parts.foldlM addPart acc) = true ↔ ∃ p ∈ parts, isErr (partSet p) = true := by
  intro parts
  induction parts with
  | nil =>
      intro acc
      rw [foldlM_addPart_nil]
      simp [isErr]
  | cons p ps ih =>
      intro acc
      rw [foldlM_addPart_cons]
      rcases hp : partSet p with e | s <;> simp only [hp]
      · constructor
        · intro _
          exact ⟨p, by simp, by simp [isErr, hp]⟩
        · intro _
          rfl
      · rw [ih]
        constructor
        · rintro ⟨q, hq, hqe⟩
          exact ⟨q, by simp [hq], hqe⟩
        · rintro ⟨q, hq, hqe⟩
          rcases List.mem_cons.mp hq with rfl | hq
          · rw [hp] at hqe
            simp [isErr] at hqe
          · exact ⟨q, hq, hqe⟩

lemma partSet_ok_bounds {part : List Char} {s : List ℤ} (h : partSet part = .ok s) :
    ∀ x ∈ s, 1 ≤ x ∧ x ≤ 65535 := by
  intro x hx
  by_cases hc : part.contains '-'
  · rcases ha : pyInt (rangeLo part) with _ | a <;>
      rcases hb : pyInt (rangeHi part) with _ | b <;>
      simp only [partSet, hc, ha, hb, if_true, reduceCtorEq] at h
    by_cases hr : a < 1 ∨ b > 65535 ∨ a > b
    · simp [hr] at h
    · simp only [hr, if_false, Except.ok.injEq] at h
      subst h
      rcases mem_pyRange.mp hx with ⟨h1, h2⟩
      omega
  · rcases hn : pyInt part with _ | n <;>
      simp only [partSet, hc, hn, Bool.false_eq_true, if_false, reduceCtorEq] at h
    by_cases hr : n < 1 ∨ n > 65535
    · simp [hr] at h
    · simp only [hr, if_false, Except.ok.injEq] at h
      subst h
      simp only [List.mem_singleton] at hx
      omega

lemma parse_ports_ok_spec {spec : String} {l : List ℤ} (h : parse_ports spec = .ok l) :
    l.Sorted (· < ·) ∧
      ∀ x : ℤ, x ∈ l ↔ ∃ p ∈ portParts spec, ∃ s, partSet p = .ok s ∧ x ∈ s := by
  unfold parse_ports at h
  rcases hf : (portParts spec).foldlM addPart ([] : List ℤ) with e | s <;> rw [hf] at h
  · simp at h
  · simp only [Except.ok.injEq] at h
    subst h
    have hnd : s.Nodup := foldlM_addPart_nodup _ _ _ hf List.nodup_nil
    have hperm := List.perm_insertionSort (α := ℤ) (· ≤ ·) s
    refine ⟨?_, ?_⟩
    · exact (List.sorted_insertionSort _ s).lt_of_le (hperm.nodup_iff.mpr hnd)
    · intro x
      rw [hperm.mem_iff]
      have hm := foldlM_addPart_ok_mem _ _ _ hf x
      simpa using hm

lemma parse_ports_ok_bounds {spec : String} {l : List ℤ} (h : parse_ports spec = .ok l) :
    ∀ x ∈ l, 1 ≤ x ∧ x ≤ 65535 := by
  intro x hx
  rcases ((parse_ports_ok_spec h).2 x).mp hx with ⟨p, hp, s, hs, hxs⟩
  exact partSet_ok_bounds hs x hxs

lemma isErr_parse_ports (spec : String) :
    isErr (parse_ports spec) = isErr ((portParts spec).foldlM addPart ([] : List ℤ)) := by
  unfold parse_ports
  rcases hf : (portParts spec).foldlM addPart ([] : List ℤ) with e | s <;> rfl

lemma parse_ports_err_iff (spec : String) :
    isErr (parse_ports spec) = true ↔ ∃ p ∈ portParts spec, isErr (partSet p) = true := by
  rw [isErr_parse_ports]
  exact foldlM_addPart_err _ _

lemma partSet_range_err {part : List Char} {a b : ℤ}
    (hc : part.contains '-' = true)
    (ha : pyInt (rangeLo part) = some a) (hb : pyInt (rangeHi part) = some b) :
    isErr (partSet part) = true ↔ a < 1 ∨ b > 65535 ∨ a > b := by
  have hm : '-' ∈ part := by simpa using hc
  by_cases hr : a < 1 ∨ b > 65535 ∨ a > b <;> simp [partSet, hm, ha, hb, hr, isErr]

lemma partSet_single_err {part : List Char} {n : ℤ}
    (hc : part.contains '-' = false) (hn : pyInt part = some n) :
    isErr (partSet part) = true ↔ n < 1 ∨ n > 65535 := by
  have hm : ¬ ('-' ∈ part) := by simpa using hc
  by_cases hr : n < 1 ∨ n > 65535 <;> simp [partSet, hm, hn, hr, isErr]

lemma partSet_range_noint {part : List Char}
    (hc : part.contains '-' = true)
    (h : pyInt (rangeLo part) = none ∨ pyInt (rangeHi part) = none) :
    isErr (partSet part) = true := by
  have hm : '-' ∈ part := by simpa using hc
  rcases ha : pyInt (rangeLo part) with _ | a <;> rcases hb : pyInt (rangeHi part) with _ | b <;>
    simp [partSet, hm, ha, hb, isErr]
  rw [ha, hb] at h
  simp at h

lemma partSet_single_noint {part : List Char}
    (hc : part.contains '-' = false) (h : pyInt part = none) :
    isErr (partSet part) = true := by
  have hm : ¬ ('-' ∈ part) := by simpa using hc
  simp [partSet, hm, h, isErr]

/-! ## Helper lemmas about the sweep -/

lemma scan_port_fst (t : Transport) (host : String) (port : ℤ) (timeout : ℚ) :
    (scan_port t host port timeout).1 = port := by
  rcases h : t host port with c | _ <;> simp [scan_port, h]

lemma foldl_append_if (rs : List (ℤ × Bool)) :
    ∀ acc : List ℤ,
      rs.foldl (fun acc r => if r.2 then acc ++ [r.1] else acc) acc =
        acc ++ (rs.filter (fun r => r.2)).map Prod.fst := by
  induction rs with
  | nil => simp
  | cons r rs ih =>
      intro acc
      rcases hb : r.2 <;> simp [List.foldl_cons, hb, ih]

lemma openPorts_eq_filter (t : Transport) (host : String) (timeout : ℚ) (comp : List ℤ) :
    ((comp.map (fun p => scan_port t host p timeout)).foldl
        (fun acc r => if r.2 then acc ++ [r.1] else acc) []) =
      comp.filter (fun p => (scan_port t host p timeout).2) := by
  rw [foldl_append_if]
  rw [List.nil_append]
  induction comp with
  | nil => simp
  | cons p ps ih =>
      rcases hb : (scan_port t host p timeout).2 <;>
        simp [List.filter_cons, hb, ih, scan_port_fst]

lemma submissionTrace_cons (p : ℤ) (ps : List ℤ) (d : ℚ) :
    submissionTrace (p :: ps) d = .submit p :: .sleep d :: submissionTrace ps d := by
  simp [submissionTrace]

lemma submissionTrace_submits (ports : List ℤ) (d : ℚ) :
    (submissionTrace ports d).filterMap submitOf = ports := by
  induction ports with
  | nil => rfl
  | cons p ps ih => simp [submissionTrace_cons, List.filterMap_cons, submitOf, ih]

lemma submissionTrace_get (ports : List ℤ) (d : ℚ) :
    ∀ i : ℕ, (submissionTrace ports d)[2 * i]? = (ports[i]?).map Ev.submit ∧
      (submissionTrace ports d)[2 * i + 1]? = (ports[i]?).map (fun _ => Ev.sleep d) := by
  induction ports with
  | nil => intro i; simp [submissionTrace]
  | cons p ps ih =>
      intro i
      cases i with
      | zero => simp [submissionTrace_cons]
      | succ j =>
          constructor
          · have e : 2 * (j + 1) = 2 * j + 1 + 1 := by ring
            rw [submissionTrace_cons, e, List.getElem?_cons_succ, List.getElem?_cons_succ,
              List.getElem?_cons_succ]
            exact (ih j).1
          · have e : 2 * (j + 1) + 1 = 2 * j + 1 + 1 + 1 := by ring
            rw [submissionTrace_cons, e, List.getElem?_cons_succ, List.getElem?_cons_succ,
              List.getElem?_cons_succ]
            exact (ih j).2

/-! ## Helper lemmas about the client loop -/

lemma clientLoop_nil (srv : ServerModel) (k : Nat) (sent : List (List Char)) :
    clientLoop srv [] k sent = (sent, .eof) := rfl

lemma clientLoop_none (srv : ServerModel) (rest : List (Option (List Char))) (k : Nat)
    (sent : List (List Char)) :
    clientLoop srv (none :: rest) k sent = (sent, .eof) := rfl

lemma clientLoop_blank {line : List Char} (hb : pyStrip line = []) (srv : ServerModel)
    (rest : List (Option (List Char))) (k : Nat) (sent : List (List Char)) :
    clientLoop srv (some line :: rest) k sent = clientLoop srv rest k sent := by
  simp [clientLoop, hb]

lemma clientLoop_keyword {line : List Char} (hq : isQuitWord (pyStrip line) = true)
    (srv : ServerModel) (rest : List (Option (List Char))) (k : Nat)
    (sent : List (List Char)) (hb : pyStrip line ≠ []) :
    clientLoop srv (some line :: rest) k sent = (sent, .keyword) := by
  simp [clientLoop, hb, hq]

lemma clientLoop_sendData {line : List Char} {srv : ServerModel} {k : Nat} {s : String}
    (hb : pyStrip line ≠ []) (hq : isQuitWord (pyStrip line) = false)
    (hsend : srv.sendOk k = true) (hrecv : srv.recv k = .data s)
    (rest : List (Option (List Char))) (sent : List (List Char)) :
    clientLoop srv (some line :: rest) k sent =
      clientLoop srv rest (k + 1) (sent ++ [pyStrip line]) := by
  simp [clientLoop, hb, hq, hsend, hrecv]

lemma clientLoop_sent_mem (srv : ServerModel) :
    ∀ (inputs : List (Option (List Char))) (k : Nat) (sent : List (List Char)) (m : List Char),
      m ∈ (clientLoop srv inputs k sent).1 →
      m ∈ sent ∨ ∃ l, (some l) ∈ inputs ∧ m = pyStrip l ∧ pyStrip l ≠ [] ∧
        isQuitWord (pyStrip l) = false := by
  intro inputs
  induction inputs with
  | nil => exact fun k sent m hm => .inl hm
  | cons i rest ih =>
      intro k sent m hm
      cases i with
      | none => exact .inl hm
      | some line =>
          by_cases hb : pyStrip line = []
          · rw [clientLoop_blank hb] at hm
            rcases ih k sent m hm with h | ⟨l, hl, hrest⟩
            · exact .inl h
            · exact .inr ⟨l, List.mem_cons_of_mem _ hl, hrest⟩
          · by_cases hq : isQuitWord (pyStrip line) = true
            · rw [clientLoop_keyword hq srv rest k sent hb] at hm
              exact .inl hm
            · rcases hs : srv.sendOk k with _ | _
              · -- sendOk = false: BrokenPipeError, loop stops with `sent`
                have : clientLoop srv (some line :: rest) k sent = (sent, .brokenPipe) := by
                  simp [clientLoop, hb, hq, hs]
                rw [this] at hm
                exact .inl hm
              · -- sendOk = true: the stripped message is sent, then recv decides
                have hq' : isQuitWord (pyStrip line) = false := by
                  simpa using hq
                rcases hr : srv.recv k with _ | _ | s
                · have : clientLoop srv (some line :: rest) k sent =
                      (sent ++ [pyStrip line], .serverClosed) := by
                    simp [clientLoop, hb, hq', hs, hr]
                  rw [this] at hm
                  rcases List.mem_append.mp hm with h | h
                  · exact .inl h
                  · refine .inr ⟨line, List.mem_cons_self _ _, ?_, hb, hq'⟩
                    simpa using h
                · have : clientLoop srv (some line :: rest) k sent =
                      clientLoop srv rest (k + 1) (sent ++ [pyStrip line]) := by
                    simp [clientLoop, hb, hq', hs, hr]
                  rw [this] at hm
                  rcases ih (k + 1) (sent ++ [pyStrip line]) m hm with h | ⟨l, hl, hrest⟩
                  · rcases List.mem_append.mp h with h' | h'
                    · exact .inl h'
                    · refine .inr ⟨line, List.mem_cons_self _ _, ?_, hb, hq'⟩
                      simpa using h'
                  · exact .inr ⟨l, List.mem_cons_of_mem _ hl, hrest⟩
                · have : clientLoop srv (some line :: rest) k sent =
                      clientLoop srv rest (k + 1) (sent ++ [pyStrip line]) := by
                    simp [clientLoop, hb, hq', hs, hr]
                  rw [this] at hm
                  rcases ih (k + 1) (sent ++ [pyStrip line]) m hm with h | ⟨l, hl, hrest⟩
                  · rcases List.mem_append.mp h with h' | h'
                    · exact .inl h'
                    · refine .inr ⟨line, List.mem_cons_self _ _, ?_, hb, hq'⟩
                      simpa using h'
                  · exact .inr ⟨l, List.mem_cons_of_mem _ hl, hrest⟩

/-! ## Claim theorems -/

/-- C2: for every valid port specification string, `parse_ports` returns a
strictly ascending, duplicate-free sequence with every element in
`[1, 65535]`, whose members are exactly the union of the values of all
non-blank segments (single ports and inclusive ranges). -/
theorem parse_ports_sorted_union (spec : String) (l : List ℤ)
    (h : parse_ports spec = .ok l) :
    l.Sorted (· < ·) ∧ l.Nodup ∧ (∀ x ∈ l, 1 ≤ x ∧ x ≤ 65535) ∧
      (∀ x : ℤ, x ∈ l ↔ ∃ p ∈ portParts spec, ∃ s, partSet p = .ok s ∧ x ∈ s) := by
  obtain ⟨hsort, hmem⟩ := parse_ports_ok_spec h
  exact ⟨hsort, hsort.nodup, parse_ports_ok_bounds h, hmem⟩

/-- Witness for C2: `"80,75-85,82"` parses to `75..85`, sorted, duplicate-free
and in range, exactly as the union of the three overlapping segments. -/
theorem parse_ports_sorted_union_witness :
    parse_ports "80,75-85,82" = .ok [75, 76, 77, 78, 79, 80, 81, 82, 83, 84, 85] ∧
      (([75, 76, 77, 78, 79, 80, 81, 82, 83, 84, 85] : List ℤ).Sorted (· < ·) ∧
        ([75, 76, 77, 78, 79, 80, 81, 82, 83, 84, 85] : List ℤ).Nodup ∧
        (∀ x ∈ ([75, 76, 77, 78, 79, 80, 81, 82, 83, 84, 85] : List ℤ), 1 ≤ x ∧ x ≤ 65535) ∧
        (∀ x : ℤ, x ∈ ([75, 76, 77, 78, 79, 80, 81, 82, 83, 84, 85] : List ℤ) ↔
          ∃ p ∈ portParts "80,75-85,82", ∃ s, partSet p = .ok s ∧ x ∈ s)) :=
  ⟨by rfl, parse_ports_sorted_union "80,75-85,82" _ (by rfl)⟩

/-- C3: `parse_ports` fails exactly when some non-blank segment is malformed;
a range segment `a-b` whose bounds both parse as integers fails iff `a < 1`,
`b > 65535` or `a > b`; a single-port segment parsing as integer `n` fails iff
`n` is outside `[1, 65535]`; segments whose tokens do not parse as integers
fail with the same error kind. -/
theorem parse_ports_error_conditions (spec : String) :
    (isErr (parse_ports spec) = true ↔ ∃ p ∈ portParts spec, isErr (partSet p) = true) ∧
    (∀ (part : List Char) (a b : ℤ), part.contains '-' = true →
      pyInt (rangeLo part) = some a → pyInt (rangeHi part) = some b →
      (isErr (partSet part) = true ↔ a < 1 ∨ b > 65535 ∨ a > b)) ∧
    (∀ (part : List Char) (n : ℤ), part.contains '-' = false → pyInt part = some n →
      (isErr (partSet part) = true ↔ n < 1 ∨ n > 65535)) ∧
    (∀ part : List Char, part.contains '-' = true →
      (pyInt (rangeLo part) = none ∨ pyInt (rangeHi part) = none) →
      isErr (partSet part) = true) ∧
    (∀ part : List Char, part.contains '-' = false → pyInt part = none →
      isErr (partSet part) = true) :=
  ⟨parse_ports_err_iff spec,
   fun _ _ _ hc ha hb => partSet_range_err hc ha hb,
   fun _ _ hc hn => partSet_single_err hc hn,
   fun _ hc h => partSet_range_noint hc h,
   fun _ hc h => partSet_single_noint hc h⟩

/-- Witness for C3: `"0-10"`, `"70000"`, `"10-5"` and `"abc"` all fail, each
through the characterization theorem. -/
theorem parse_ports_error_conditions_witness :
    isErr (parse_ports "0-10") = true ∧ isErr (parse_ports "70000") = true ∧
      isErr (parse_ports "10-5") = true ∧ isErr (parse_ports "abc") = true :=
  ⟨(parse_ports_error_conditions "0-10").1.mpr (by decide),
   (parse_ports_error_conditions "70000").1.mpr (by decide),
   (parse_ports_error_conditions "10-5").1.mpr (by decide),
   (parse_ports_error_conditions "abc").1.mpr (by decide)⟩

/-- C5: `scan_port` is total: it always returns the pair of the probed port
and a boolean, the boolean is `true` exactly when `connect_ex` returned `0`,
and any raised exception (refused, timed out, reset, resolution failure, ...)
yields `(port, false)`, indistinguishable from a closed port. -/
theorem scan_port_total (t : Transport) (host : String) (port : ℤ) (timeout : ℚ) :
    (scan_port t host port timeout).1 = port ∧
      ((scan_port t host port timeout).2 = true ↔ t host port = .code 0) ∧
      (t host port = .fault → (scan_port t host port timeout).2 = false) := by
  refine ⟨scan_port_fst t host port timeout, ?_, ?_⟩
  · rcases h : t host port with c | _ <;> simp [scan_port, h]
  · intro h
    simp [scan_port, h]

/-- Witness for C5: on a transport that connects, the result is
`(22, true)`; on a transport that raises, the flag is `false`. -/
theorem scan_port_total_witness :
    scan_port (fun _ _ => ConnectOutcome.code 0) "127.0.0.1" 22 (1/2) = (22, true) ∧
      (scan_port (fun _ _ => ConnectOutcome.fault) "127.0.0.1" 22 (1/2)).2 = false := by
  constructor
  · have h := scan_port_total (fun _ _ => ConnectOutcome.code 0) "127.0.0.1" 22 (1/2)
    exact Prod.ext_iff.mpr ⟨h.1, h.2.1.mpr rfl⟩
  · exact (scan_port_total (fun _ _ => ConnectOutcome.fault) "127.0.0.1" 22 (1/2)).2.2 rfl

/-- C4: a host outside the allow-list makes the scanner exit with code 1 and
the `ForbiddenTarget` diagnostic before any socket is created (no probes, no
results, no submissions); a host in the set passes the guard. -/
theorem forbidden_host_guard (host spec : String) (workers : Nat) (timeout delay : ℚ)
    (t : Transport) (comp : List ℤ) :
    (host ∉ ALLOWED_HOSTS →
      runScanner host spec workers timeout delay t comp =
        { exitCode := 1, err := some .forbiddenTarget, sockets := [], results := [],
          openPorts := [], trace := [] }) ∧
    (host ∈ ALLOWED_HOSTS →
      (runScanner host spec workers timeout delay t comp).err ≠ some .forbiddenTarget) := by
  constructor
  · intro hh
    unfold runScanner
    rw [if_neg hh]
  · intro hh
    unfold runScanner
    rw [if_pos hh]
    rcases parse_ports spec with e | ports <;> simp

/-- Witness for C4: `evil.example.com` is rejected with exit code 1 and zero
sockets; `127.0.0.1` passes the guard. -/
theorem forbidden_host_guard_witness :
    runScanner "evil.example.com" "22" 50 (1/2) (1/200) (fun _ _ => ConnectOutcome.fault)
        [22] =
      { exitCode := 1, err := some .forbiddenTarget, sockets := [], results := [],
        openPorts := [], trace := [] } ∧
    (runScanner "127.0.0.1" "22" 50 (1/2) (1/200) (fun _ _ => ConnectOutcome.fault)
        [22]).err ≠ some .forbiddenTarget :=
  ⟨(forbidden_host_guard "evil.example.com" "22" 50 (1/2) (1/200)
      (fun _ _ => ConnectOutcome.fault) [22]).1 (by decide),
   (forbidden_host_guard "127.0.0.1" "22" 50 (1/2) (1/200)
      (fun _ _ => ConnectOutcome.fault) [22]).2 (by decide)⟩

/-- C10 (implicit): a specification with no non-blank segment parses to the
empty port list without error, and the scan completes normally: exit code 0,
zero sockets, zero results, empty summary. -/
theorem blank_spec_scans_nothing (host spec : String) (workers : Nat) (timeout delay : ℚ)
    (t : Transport) (hh : host ∈ ALLOWED_HOSTS) (hp : portParts spec = []) :
    parse_ports spec = .ok [] ∧
      runScanner host spec workers timeout delay t [] =
        { exitCode := 0, err := none, sockets := [], results := [], openPorts := [],
          trace := [] } := by
  have hpp : parse_ports spec = .ok [] := by
    unfold parse_ports
    rw [hp]
    rfl
  refine ⟨hpp, ?_⟩
  unfold runScanner
  rw [if_pos hh, hpp]
  rfl

/-- Witness for C10: both `""` and `" , ,"` parse to the empty set and the
sweep on `127.0.0.1` finishes with exit code 0 and no probes. -/
theorem blank_spec_scans_nothing_witness :
    (parse_ports "" = .ok [] ∧
      runScanner "127.0.0.1" "" 50 (1/2) (1/200) (fun _ _ => ConnectOutcome.fault) [] =
        { exitCode := 0, err := none, sockets := [], results := [], openPorts := [],
          trace := [] }) ∧
    (parse_ports " , ," = .ok [] ∧
      runScanner "127.0.0.1" " , ," 50 (1/2) (1/200) (fun _ _ => ConnectOutcome.fault) [] =
        { exitCode := 0, err := none, sockets := [], results := [], openPorts := [],
          trace := [] }) :=
  ⟨blank_spec_scans_nothing "127.0.0.1" "" 50 (1/2) (1/200)
      (fun _ _ => ConnectOutcome.fault) (by decide) (by rfl),
   blank_spec_scans_nothing "127.0.0.1" " , ," 50 (1/2) (1/200)
      (fun _ _ => ConnectOutcome.fault) (by decide) (by rfl)⟩

/-- C6: on an allowed host with a valid specification, the submission loop
submits exactly one probe task per parsed port, in ascending order (the
parsed list is strictly sorted), sleeps for the pacing delay directly after
each submission (trace positions `2*i` / `2*i+1`), and the trace does not
depend on the worker-pool cap. -/
theorem paced_ascending_submission (host spec : String) (w₁ w₂ : Nat)
    (timeout delay : ℚ) (t : Transport) (comp ports : List ℤ)
    (hh : host ∈ ALLOWED_HOSTS) (hp : parse_ports spec = .ok ports) :
    (runScanner host spec w₁ timeout delay t comp).trace.filterMap submitOf = ports ∧
      ports.Sorted (· < ·) ∧
      (∀ i : ℕ,
        (runScanner host spec w₁ timeout delay t comp).trace[2 * i]? =
          (ports[i]?).map Ev.submit ∧
        (runScanner host spec w₁ timeout delay t comp).trace[2 * i + 1]? =
          (ports[i]?).map (fun _ => Ev.sleep delay)) ∧
      (runScanner host spec w₁ timeout delay t comp).trace =
        (runScanner host spec w₂ timeout delay t comp).trace := by
  have htr : ∀ w : Nat, (runScanner host spec w timeout delay t comp).trace =
      submissionTrace ports delay := by
    intro w
    unfold runScanner
    rw [if_pos hh, hp]
  refine ⟨?_, (parse_ports_ok_spec hp).1, ?_, ?_⟩
  · rw [htr w₁]
    exact submissionTrace_submits ports delay
  · intro i
    rw [htr w₁]
    exact submissionTrace_get ports delay i
  · rw [htr w₁, htr w₂]

/-- Witness for C6: scanning `"80,22"` on `127.0.0.1` submits 22 then 80,
each submission followed by the pacing sleep, with caps 5 and 50 giving the
same trace. -/
theorem paced_ascending_submission_witness :
    (runScanner "127.0.0.1" "80,22" 5 (1/2) (1/200) (fun _ _ => ConnectOutcome.fault)
        []).trace.filterMap submitOf = [22, 80] ∧
      ([22, 80] : List ℤ).Sorted (· < ·) ∧
      (∀ i : ℕ,
        (runScanner "127.0.0.1" "80,22" 5 (1/2) (1/200) (fun _ _ => ConnectOutcome.fault)
            []).trace[2 * i]? = (([22, 80] : List ℤ)[i]?).map Ev.submit ∧
        (runScanner "127.0.0.1" "80,22" 5 (1/2) (1/200) (fun _ _ => ConnectOutcome.fault)
            []).trace[2 * i + 1]? =
          (([22, 80] : List ℤ)[i]?).map (fun _ => Ev.sleep (1/200))) ∧
      (runScanner "127.0.0.1" "80,22" 5 (1/2) (1/200) (fun _ _ => ConnectOutcome.fault)
          []).trace =
        (runScanner "127.0.0.1" "80,22" 50 (1/2) (1/200) (fun _ _ => ConnectOutcome.fault)
          []).trace :=
  paced_ascending_submission "127.0.0.1" "80,22" 5 50 (1/2) (1/200)
    (fun _ _ => ConnectOutcome.fault) [] [22, 80] (by decide) (by rfl)

lemma runScanner_results (host spec : String) (workers : Nat) (timeout delay : ℚ)
    (t : Transport) (comp ports : List ℤ)
    (hh : host ∈ ALLOWED_HOSTS) (hp : parse_ports spec = .ok ports) :
    (runScanner host spec workers timeout delay t comp).results =
      comp.map (fun p => scan_port t host p timeout) := by
  unfold runScanner
  rw [if_pos hh, hp]

lemma runScanner_openPorts (host spec : String) (workers : Nat) (timeout delay : ℚ)
    (t : Transport) (comp ports : List ℤ)
    (hh : host ∈ ALLOWED_HOSTS) (hp : parse_ports spec = .ok ports) :
    (runScanner host spec workers timeout delay t comp).openPorts =
      comp.filter (fun p => (scan_port t host p timeout).2) := by
  unfold runScanner
  rw [if_pos hh, hp]
  exact openPorts_eq_filter t host timeout comp

/-- C1 is false on the code: with both scanned ports open and completions
arriving in the order 80, 22, the final summary lists the open ports as
`[80, 22]` — the completion order, not ascending order (`main` never sorts
`open_ports` before logging it). -/
theorem unsorted_summary_counterexample :
    List.Perm [80, 22] [22, 80] ∧
      parse_ports "22,80" = .ok [22, 80] ∧
      (runScanner "127.0.0.1" "22,80" 50 (1/2) (1/200) stubTransport [80, 22]).openPorts =
        [80, 22] ∧
      ¬ (runScanner "127.0.0.1" "22,80" 50 (1/2) (1/200) stubTransport
          [80, 22]).openPorts.Sorted (· ≤ ·) := by
  refine ⟨by decide, by rfl, by rfl, ?_⟩
  have h : (runScanner "127.0.0.1" "22,80" 50 (1/2) (1/200) stubTransport
      [80, 22]).openPorts = [80, 22] := by rfl
  rw [h]
  decide

/-- C1 (amended): the final summary's open-port list is the completion order
restricted to open ports; as a multiset it is exactly the set of open ports,
and it is sorted ascending when (but only when) the completions happen to
arrive in ascending port order. -/
theorem openPorts_follow_completion (host spec : String) (workers : Nat)
    (timeout delay : ℚ) (t : Transport) (comp ports : List ℤ)
    (hh : host ∈ ALLOWED_HOSTS) (hp : parse_ports spec = .ok ports)
    (hc : comp.Perm ports) :
    (runScanner host spec workers timeout delay t comp).openPorts =
        comp.filter (fun p => (scan_port t host p timeout).2) ∧
      (runScanner host spec workers timeout delay t comp).openPorts.Perm
        (ports.filter (fun p => (scan_port t host p timeout).2)) ∧
      (comp.Sorted (· < ·) →
        (runScanner host spec workers timeout delay t comp).openPorts.Sorted (· < ·)) := by
  have hop := runScanner_openPorts host spec workers timeout delay t comp ports hh hp
  refine ⟨hop, ?_, ?_⟩
  · rw [hop]
    exact hc.filter _
  · intro hs
    rw [hop]
    exact List.Pairwise.filter _ hs

/-- Witness for amended C1: with completions in the order 80, 22 the summary
is `[80, 22]`, exactly the open ports in completion order. -/
theorem openPorts_follow_completion_witness :
    (runScanner "127.0.0.1" "22,80" 50 (1/2) (1/200) stubTransport [80, 22]).openPorts =
        ([80, 22] : List ℤ).filter
          (fun p => (scan_port stubTransport "127.0.0.1" p (1/2)).2) ∧
      (runScanner "127.0.0.1" "22,80" 50 (1/2) (1/200) stubTransport
          [80, 22]).openPorts.Perm
        (([22, 80] : List ℤ).filter
          (fun p => (scan_port stubTransport "127.0.0.1" p (1/2)).2)) ∧
      (([80, 22] : List ℤ).Sorted (· < ·) →
        (runScanner "127.0.0.1" "22,80" 50 (1/2) (1/200) stubTransport
          [80, 22]).openPorts.Sorted (· < ·)) :=
  openPorts_follow_completion "127.0.0.1" "22,80" 50 (1/2) (1/200) stubTransport
    [80, 22] [22, 80] (by decide) (by rfl) (by decide)

/-- C7 is false as literally stated: sweeping `"22,80,81"` over a transport
where 22 and 80 are reachable and 81 is not can yield `openPorts = [80, 22]`
(three results, correct set, but not the stored list `[22, 80]`), because the
stored field follows completion order. -/
theorem sweep_concrete_counterexample :
    List.Perm [81, 80, 22] [22, 80, 81] ∧
      parse_ports "22,80,81" = .ok [22, 80, 81] ∧
      (runScanner "127.0.0.1" "22,80,81" 50 (1/2) (1/200) stubTransport
          [81, 80, 22]).results.length = 3 ∧
      (runScanner "127.0.0.1" "22,80,81" 50 (1/2) (1/200) stubTransport
          [81, 80, 22]).openPorts = [80, 22] ∧
      (runScanner "127.0.0.1" "22,80,81" 50 (1/2) (1/200) stubTransport
          [81, 80, 22]).openPorts ≠ [22, 80] := by
  refine ⟨by decide, by rfl, by rfl, by rfl, ?_⟩
  have h : (runScanner "127.0.0.1" "22,80,81" 50 (1/2) (1/200) stubTransport
      [81, 80, 22]).openPorts = [80, 22] := by rfl
  rw [h]
  decide

/-- C7 (amended): the completed sweep holds exactly one `ProbeResult` per
parsed port (the result ports are a permutation of the PortSet), and the
open-port collection equals — as a set — exactly the ports whose probes
succeeded; the stored list follows completion order. -/
theorem sweep_results_exact (host spec : String) (workers : Nat) (timeout delay : ℚ)
    (t : Transport) (comp ports : List ℤ)
    (hh : host ∈ ALLOWED_HOSTS) (hp : parse_ports spec = .ok ports)
    (hc : comp.Perm ports) :
    ((runScanner host spec workers timeout delay t comp).results.map Prod.fst).Perm ports ∧
      (runScanner host spec workers timeout delay t comp).results.length = ports.length ∧
      (∀ p : ℤ, p ∈ (runScanner host spec workers timeout delay t comp).openPorts ↔
        p ∈ ports ∧ (scan_port t host p timeout).2 = true) ∧
      (runScanner host spec workers timeout delay t comp).openPorts.Nodup := by
  have hres := runScanner_results host spec workers timeout delay t comp ports hh hp
  have hop := runScanner_openPorts host spec workers timeout delay t comp ports hh hp
  have hmapfst : ((comp.map (fun p => scan_port t host p timeout)).map Prod.fst) = comp := by
    rw [List.map_map]
    have hco : (Prod.fst ∘ fun p => scan_port t host p timeout) = id := by
      funext p
      exact scan_port_fst t host p timeout
    rw [hco, List.map_id]
  have hnd : comp.Nodup := hc.nodup_iff.mpr (parse_ports_ok_spec hp).1.nodup
  refine ⟨?_, ?_, ?_, ?_⟩
  · rw [hres, hmapfst]
    exact hc
  · rw [hres, List.length_map]
    exact hc.length_eq
  · intro p
    rw [hop, List.mem_filter, hc.mem_iff]
  · rw [hop]
    exact hnd.filter _

/-- Witness for amended C7: sweeping `"22,80,81"` over the stub transport
with completions `81, 80, 22` yields three results, one per port, and the
open-port collection is exactly \x7b22, 80\x7d. -/
theorem sweep_results_exact_witness :
    ((runScanner "127.0.0.1" "22,80,81" 50 (1/2) (1/200) stubTransport
        [81, 80, 22]).results.map Prod.fst).Perm [22, 80, 81] ∧
      (runScanner "127.0.0.1" "22,80,81" 50 (1/2) (1/200) stubTransport
        [81, 80, 22]).results.length = ([22, 80, 81] : List ℤ).length ∧
      (∀ p : ℤ, p ∈ (runScanner "127.0.0.1" "22,80,81" 50 (1/2) (1/200) stubTransport
          [81, 80, 22]).openPorts ↔
        p ∈ ([22, 80, 81] : List ℤ) ∧ (scan_port stubTransport "127.0.0.1" p (1/2)).2 = true) ∧
      (runScanner "127.0.0.1" "22,80,81" 50 (1/2) (1/200) stubTransport
        [81, 80, 22]).openPorts.Nodup :=
  sweep_results_exact "127.0.0.1" "22,80,81" 50 (1/2) (1/200) stubTransport
    [81, 80, 22] [22, 80, 81] (by decide) (by rfl) (by decide)

/-- C9 is false as literally stated: the client does not send the input line
verbatim — it strips surrounding whitespace (here `" hello "` is sent as
`"hello"`); it also disconnects on `"QUIT"` (case-insensitive match, not just
the keywords `quit`/`exit`), and a blank line is skipped rather than sent. -/
theorem client_verbatim_counterexample :
    (clientLoop srvEcho [some " hello ".data] 0 []).1 = ["hello".data] ∧
      "hello".data ≠ " hello ".data ∧
      clientLoop srvEcho [some "QUIT".data] 0 [] = ([], .keyword) ∧
      clientLoop srvEcho [some "   ".data] 0 [] = ([], .eof) := by
  exact ⟨by rfl, by decide, by rfl, by rfl⟩

/-- C9 (amended): every message the client sends is the whitespace-stripped
form of some input line that is non-blank and not a quit keyword; a blank
line is skipped; a line whose stripped, lowercased form is `quit` or `exit`
disconnects without sending; a non-blank, non-keyword line is sent stripped
(advancing the loop); end-of-input or interrupt disconnects. -/
theorem client_sends_stripped (srv : ServerModel) (inputs : List (Option (List Char))) :
    (∀ m ∈ (clientLoop srv inputs 0 []).1,
      ∃ l, some l ∈ inputs ∧ m = pyStrip l ∧ pyStrip l ≠ [] ∧
        isQuitWord (pyStrip l) = false) ∧
      (∀ (line : List Char) (rest : List (Option (List Char))) (k : Nat)
          (sent : List (List Char)),
        (pyStrip line = [] →
          clientLoop srv (some line :: rest) k sent = clientLoop srv rest k sent) ∧
        (isQuitWord (pyStrip line) = true → pyStrip line ≠ [] →
          clientLoop srv (some line :: rest) k sent = (sent, .keyword)) ∧
        (∀ s : String, pyStrip line ≠ [] → isQuitWord (pyStrip line) = false →
          srv.sendOk k = true → srv.recv k = .data s →
          clientLoop srv (some line :: rest) k sent =
            clientLoop srv rest (k + 1) (sent ++ [pyStrip line]))) ∧
      (∀ (rest : List (Option (List Char))) (k : Nat) (sent : List (List Char)),
        clientLoop srv (none :: rest) k sent = (sent, .eof)) ∧
      (∀ (k : Nat) (sent : List (List Char)), clientLoop srv [] k sent = (sent, .eof)) := by
  refine ⟨?_, ?_, clientLoop_none srv, clientLoop_nil srv⟩
  · intro m hm
    rcases clientLoop_sent_mem srv inputs 0 [] m hm with h | h
    · simp at h
    · exact h
  · intro line rest k sent
    exact ⟨fun hb => clientLoop_blank hb srv rest k sent,
      fun hq hb => clientLoop_keyword hq srv rest k sent hb,
      fun s hb hq hs hr => clientLoop_sendData hb hq hs hr rest sent⟩

/-- Witness for amended C9: with inputs `" hello "` then `"exit"`, the client
sends exactly `"hello"` and stops on the keyword; each sent message is the
stripped form of a non-blank, non-keyword input line. -/
theorem client_sends_stripped_witness :
    (clientLoop srvEcho [some " hello ".data, some "exit".data] 0 []).1 = ["hello".data] ∧
      (clientLoop srvEcho [some " hello ".data, some "exit".data] 0 []).2 = .keyword ∧
      (∀ m ∈ (clientLoop srvEcho [some " hello ".data, some "exit".data] 0 []).1,
        ∃ l, some l ∈ [some " hello ".data, some "exit".data] ∧ m = pyStrip l ∧
          pyStrip l ≠ [] ∧ isQuitWord (pyStrip l) = false) :=
  ⟨by rfl, by rfl,
   (client_sends_stripped srvEcho [some " hello ".data, some "exit".data]).1⟩
